import Mathlib

/-!
Verification of the spectrum-proxy control plane (operator console, history
store, resource-pack distribution server, CDN rewrite) against its
natural-language specification.

The Go source is shallowly embedded: byte buffers are lists of naturals, Go
maps are association lists where a later insertion shadows an earlier entry,
Go strings are Lean strings but every operation used by the source
(strings.TrimSpace, strings.Fields, strings.Split, strings.Contains,
strings.HasPrefix, strings.ToLower restricted to ASCII, strings.TrimPrefix)
is re-implemented by structural recursion over the underlying character list
so that all definitions evaluate inside the kernel.  External effects
(the TCP bind, the HTTP fetch performed by resource.MustReadURL, the
session-transfer call of the proxying engine) are passed in as explicit
parameters, and the stateful handlers additionally return the list of
observable events they performed, in program order.
-/

namespace SpectrumProxy

/-! ## Embedded Go string operations -/

/-- ASCII lower-casing of a single character (embeds the effect of
strings.ToLower on the ASCII identifiers and command names this program
compares). -/
def lowerChar (c : Char) : Char :=
  if 'A' ≤ c ∧ c ≤ 'Z' then Char.ofNat (c.toNat + 32) else c

/-- strings.ToLower. -/
def strToLower (s : String) : String := ⟨s.data.map lowerChar⟩

/-- Helper for strings.HasPrefix: list version. -/
def isPrefixList : List Char → List Char → Bool
  | [], _ => true
  | _ :: _, [] => false
  | a :: as, b :: bs => a = b && isPrefixList as bs

/-- strings.HasPrefix s pre. -/
def strStartsWith (s pre : String) : Bool := isPrefixList pre.data s.data

/-- strings.Split on a single-character separator, list version.
strings.Split never returns an empty slice: splitting the empty string
yields a slice holding one empty string. -/
def splitOnChar (sep : Char) : List Char → List (List Char)
  | [] => [[]]
  | c :: rest =>
    let r := splitOnChar sep rest
    if c = sep then [] :: r
    else
      match r with
      | [] => [[c]]
      | h :: t => (c :: h) :: t

/-- strings.Split s " " as used by the completion engine. -/
def splitOnSpace (s : String) : List String :=
  (splitOnChar ' ' s.data).map (fun l => ⟨l⟩)

/-- Splitting on every whitespace character, keeping empty pieces. -/
def splitWhitespace : List Char → List (List Char)
  | [] => [[]]
  | c :: rest =>
    let r := splitWhitespace rest
    if c.isWhitespace then [] :: r
    else
      match r with
      | [] => [[c]]
      | h :: t => (c :: h) :: t

/-- strings.Fields: whitespace-separated tokens, empty pieces removed. -/
def strFields (s : String) : List String :=
  ((splitWhitespace s.data).filter (fun l => l ≠ [])).map (fun l => ⟨l⟩)

/-- strings.TrimSpace. -/
def trimSpace (s : String) : String :=
  ⟨((s.data.dropWhile Char.isWhitespace).reverse.dropWhile Char.isWhitespace).reverse⟩

/-- strings.Contains s ".." (the path-traversal guard of handleRequest). -/
def hasDotDot : List Char → Bool
  | '.' :: '.' :: _ => true
  | _ :: rest => hasDotDot rest
  | [] => false

/-- strings.TrimPrefix p "/": drops one leading slash when present. -/
def stripLeadingSlash (s : String) : String :=
  match s.data with
  | '/' :: rest => ⟨rest⟩
  | _ => s

/-- The single-quote character used by the "not found" console messages. -/
def squote : String := ⟨[Char.ofNat 39]⟩

/-! ## Embedded Go maps (association lists, newest insertion first) -/

/-- Go map lookup (first matching key wins; insertions are consed on, so the
newest insertion for a key shadows older ones, as in a real map). -/
def mapLookup {α : Type} : List (String × α) → String → Option α
  | [], _ => none
  | (k, v) :: rest, key => if k = key then some v else mapLookup rest key

/-- Go map insertion/overwrite. -/
def mapInsert {α : Type} (k : String) (v : α) (m : List (String × α)) :
    List (String × α) :=
  (k, v) :: m

/-! ## Data model: resource packs -/

/-- gophertunnel resource.Pack as consumed by this program: identifier
(UUID string), display name, version, optional content key, and the result
of reading its full byte content (ReadAt over the whole length; `none`
models a read failure). -/
structure Pack where
  uuid : String
  name : String
  version : String
  contentKey : String := ""
  read : Option (List Nat)
deriving Repr, DecidableEq

/-- Pack.WithContentKey. -/
def withContentKey (p : Pack) (key : String) : Pack := { p with contentKey := key }

/-! ## parse (main.go): loading the resource-pack directory -/

/-- parse from main.go, over the directory listing `entries` and the decoder
`decode` (resource.ReadPath): decodes each entry in order, applies a content
key when one is configured for the pack's UUID, and returns the collected
packs; the FIRST decode error is returned immediately and no packs are
produced. -/
def parse (decode : String → Except String Pack)
    (keys : List (String × String)) : List String → Except String (List Pack)
  | [] => Except.ok []
  | e :: rest =>
    match decode e with
    | Except.error err => Except.error err
    | Except.ok pack =>
      let pack :=
        match mapLookup keys pack.uuid with
        | some key => withContentKey pack key
        | none => pack
      match parse decode keys rest with
      | Except.error err => Except.error err
      | Except.ok packs => Except.ok (pack :: packs)

/-! ## HistoryFile (history.go) -/

/-- HistoryFile: maximum entry count and the in-memory history, oldest first.
The backing file path is irrelevant to the claims (Append persists after
every accepted mutation). -/
structure HistoryFile where
  maxSize : Nat
  history : List String
deriving Repr, DecidableEq

/-- HistoryFile.Append: trims the command, ignores empty commands, ignores a
command equal to the current last entry, otherwise appends and drops the
oldest entries so that at most maxSize remain.  (The source guards the
duplicate check with len > 0; getLast? = some c is equivalent.) -/
def HistoryFile.Append (h : HistoryFile) (cmd : String) : HistoryFile :=
  let c := trimSpace cmd
  if c = "" then h
  else if h.history.getLast? = some c then h
  else
    let appended := h.history ++ [c]
    let trimmed :=
      if h.maxSize < appended.length then
        appended.drop (appended.length - h.maxSize)
      else appended
    { h with history := trimmed }

/-- A sequence of Append calls, first command first. -/
def runAppend (h : HistoryFile) (cmds : List String) : HistoryFile :=
  cmds.foldl HistoryFile.Append h

/-- A freshly created empty history store bounded at `n`. -/
def emptyHistory (n : Nat) : HistoryFile := { maxSize := n, history := [] }

/-- The last `n` entries of a list (lines[len(lines)-maxSize:]). -/
def takeLast {α : Type} (n : Nat) (l : List α) : List α := l.drop (l.length - n)

/-! ## Completion engine (Completer.Complete, elk-language/go-prompt) -/

/-- prompt.Suggest. -/
structure Suggest where
  text : String
  description : String
deriving Repr, DecidableEq

/-- The fixed command vocabulary of completeCommand, in declared order. -/
def commandSuggestions : List Suggest :=
  [⟨"players", "List all connected players"⟩,
   ⟨"transfer", "Transfer a player to another server"⟩,
   ⟨"info", "Show server information"⟩,
   ⟨"stop", "Stop the server"⟩,
   ⟨"exit", "Stop the server"⟩]

/-- prompt.FilterHasPrefix: keeps the suggestions whose Text starts with
`sub`, lower-casing both sides when ignoreCase is set.  (The source
short-circuits on sub == "", returning all suggestions; filtering with the
always-true empty-string test is the same list.) -/
def filterStartsWith (suggestions : List Suggest) (sub : String)
    (ignoreCase : Bool) : List Suggest :=
  suggestions.filter fun s =>
    if ignoreCase then strStartsWith (strToLower s.text) (strToLower sub)
    else strStartsWith s.text sub

/-- prompt.Document: the typed text and the cursor position counted in
characters (runes) from the start. -/
structure Document where
  text : String
  cursor : Nat
deriving Repr, DecidableEq

/-- Document.TextBeforeCursor. -/
def textBeforeCursor (d : Document) : String := ⟨d.text.data.take d.cursor⟩

/-- Document.GetWordBeforeCursor: the text before the cursor after its last
space separator. -/
def wordBeforeCursor (d : Document) : String :=
  (splitOnSpace (textBeforeCursor d)).getLastD ""

/-- The read-only snapshots the completer consults: connected-player display
names (Registry().GetSessions) and the configured server names (serverMap
keys). -/
structure CompleterEnv where
  playerNames : List String
  serverNames : List String
deriving Repr, DecidableEq

/-- completeCommand. -/
def completeCommand (input : String) : List Suggest :=
  filterStartsWith commandSuggestions input true

/-- completePlayerNames. -/
def completePlayerNames (env : CompleterEnv) (input : String) : List Suggest :=
  filterStartsWith (env.playerNames.map fun n => ⟨n, "Connected player"⟩) input true

/-- completeServerNames. -/
def completeServerNames (env : CompleterEnv) (input : String) : List Suggest :=
  filterStartsWith (env.serverNames.map fun n => ⟨n, "Available server"⟩) input true

/-- Completer.Complete: returns the candidate list and the [start, end)
character span it would replace. -/
def Complete (env : CompleterEnv) (d : Document) : List Suggest × Nat × Nat :=
  let endIndex := d.cursor
  let w := wordBeforeCursor d
  if w = "" then ([], 0, 0)
  else
    let startIndex := endIndex - w.length
    let args := splitOnSpace (textBeforeCursor d)
    if args.length ≤ 1 then (completeCommand (args.headD ""), startIndex, endIndex)
    else
      match args.headD "" with
      | "transfer" =>
        if args.length = 2 then
          (completePlayerNames env (args.getD 1 ""), startIndex, endIndex)
        else if args.length = 3 then
          (completeServerNames env (args.getD 2 ""), startIndex, endIndex)
        else ([], 0, 0)
      | "players" => ([], 0, 0)
      | "info" => ([], 0, 0)
      | _ => ([], 0, 0)

/-! ## Command dispatcher (handleCommand, main.go) -/

/-- A connected session as seen by the console: its display name. -/
structure Session where
  displayName : String
deriving Repr, DecidableEq

/-- The externally visible operations the dispatcher can invoke. -/
inductive Action where
  | closeRpServer
  | closeProxy
  | exitSuccess
  | transferCall (player : String) (addr : String) (timeoutSeconds : Nat)
deriving Repr, DecidableEq

/-- The collaborators and globals handleCommand reads: the session registry,
serverMap, whether the resource-pack HTTP server is running (the global is
non-nil), the fields used by `info`, and the outcome of
Session.TransferTimeout (`none` = success, `some err` = failure). -/
structure DispatchEnv where
  sessions : List Session
  servers : List (String × String)
  rpServerRunning : Bool
  bindAddr : String
  defaultServer : String
  goroutines : Nat
  goVersion : String
  allocMemMB : String
  transferResult : String → String → Option String

/-- The first-match scan of serverMap performed by the transfer branch
(a missing name leaves serverAddr as the empty string). -/
def findServerAddr : List (String × String) → String → String
  | [], _ => ""
  | (k, v) :: rest, n => if k = n then v else findServerAddr rest n

/-- handleCommand after strings.Fields, on the token list.  Returns the
logged lines and the invoked operations, in order. -/
def dispatchArgs (env : DispatchEnv) : List String → List String × List Action
  | [] => ([], [])
  | cmd :: rest =>
    match cmd with
    | "players" =>
      if env.sessions.length = 0 then (["No players online"], [])
      else
        (("Players online (" ++ toString env.sessions.length ++ ")") ::
          env.sessions.map (fun s => "- " ++ s.displayName), [])
    | "transfer" =>
      if rest.length < 2 then (["Usage: transfer <player> <server>"], [])
      else
        let playerName := rest.getD 0 ""
        let serverName := rest.getD 1 ""
        match env.sessions.find? (fun s => s.displayName == playerName) with
        | none => (["Player " ++ squote ++ playerName ++ squote ++ " not found"], [])
        | some _ =>
          let serverAddr := findServerAddr env.servers serverName
          if serverAddr = "" then
            (["Server " ++ squote ++ serverName ++ squote ++ " not found"], [])
          else
            match env.transferResult playerName serverAddr with
            | some _ =>
              (["Failed to transfer player"], [Action.transferCall playerName serverAddr 10])
            | none =>
              (["Transferred " ++ playerName ++ " to " ++ serverName],
               [Action.transferCall playerName serverAddr 10])
    | "info" =>
      (["Spectrum Proxy Information",
        "- Bind Address: " ++ env.bindAddr,
        "- Default Server: " ++ env.defaultServer,
        "- Connected Players: " ++ toString env.sessions.length,
        "Available Servers:"] ++
        env.servers.map (fun kv => "- " ++ kv.2 ++ " (" ++ kv.1 ++ ")") ++
        ["Goroutines: " ++ toString env.goroutines,
         "Go Version: " ++ env.goVersion,
         "Total Allocated Memory: " ++ env.allocMemMB ++ " MB"], [])
    | "stop" | "end" =>
      (["Stopped proxy"],
       (if env.rpServerRunning then [Action.closeRpServer] else []) ++
         [Action.closeProxy, Action.exitSuccess])
    | _ =>
      (["Unknown command: " ++ cmd,
        "Available commands: players, transfer, info"], [])

/-- handleCommand: splits the line into whitespace-separated tokens and
dispatches. -/
def handleCommand (env : DispatchEnv) (command : String) :
    List String × List Action :=
  dispatchArgs env (strFields command)

/-! ## ResourcePackServer (HTTP distribution server) -/

/-- ResourcePackServer state: the UUID-keyed pack map, the UUID-keyed content
cache, and whether the one-shot `ready` channel has been closed. -/
structure ResourcePackServer where
  packs : List (String × Pack)
  contentCache : List (String × List Nat)
  readyClosed : Bool
deriving Repr, DecidableEq

/-- NewResourcePackServer: registers every pack under its UUID and eagerly
caches its content; a pack whose read fails is logged and simply skipped
(its cache entry is absent).  The ready channel starts open (not closed). -/
def NewResourcePackServer (packs : List Pack) : ResourcePackServer :=
  { packs := packs.foldl (fun m p => mapInsert p.uuid p m) [],
    contentCache :=
      packs.foldl
        (fun m p =>
          match p.read with
          | some content => mapInsert p.uuid content m
          | none => m)
        [],
    readyClosed := false }

/-- An observable step of handleRequest, in program order. -/
inductive REvent where
  | packLookup (id : String)
  | cacheLookup (id : String)
  | packRead (id : String)
  | cacheFill (id : String)
deriving Repr, DecidableEq

/-- An HTTP response of handleRequest. -/
inductive Response where
  | notFound
  | internalError
  | ok (headers : List (String × String)) (body : List Nat)
deriving Repr, DecidableEq

/-- The three headers set on a successful response. -/
def respHeaders (id : String) (content : List Nat) : List (String × String) :=
  [("Content-Disposition", "attachment; filename=" ++ id ++ ".mcpack"),
   ("Content-Type", "application/zip"),
   ("Content-Length", toString content.length)]

/-- handleRequest on the request path: strips the leading slash, rejects the
empty identifier and any identifier containing ".." or "/", then consults
the pack map, then the content cache with a lazy fill from the pack on a
miss.  Returns the response, the successor state and the performed events. -/
def handleRequest (s : ResourcePackServer) (reqPath : String) :
    Response × ResourcePackServer × List REvent :=
  let path := stripLeadingSlash reqPath
  if path = "" then (Response.notFound, s, [])
  else if hasDotDot path.data || path.data.contains '/' then (Response.notFound, s, [])
  else
    match mapLookup s.packs path with
    | none => (Response.notFound, s, [REvent.packLookup path])
    | some pack =>
      match mapLookup s.contentCache path with
      | some content =>
        (Response.ok (respHeaders path content) content, s,
         [REvent.packLookup path, REvent.cacheLookup path])
      | none =>
        match pack.read with
        | none =>
          (Response.internalError, s,
           [REvent.packLookup path, REvent.cacheLookup path, REvent.packRead path])
        | some content =>
          (Response.ok (respHeaders path content) content,
           { s with contentCache := mapInsert path content s.contentCache },
           [REvent.packLookup path, REvent.cacheLookup path, REvent.packRead path,
            REvent.cacheFill path])

/-- An observable step of Start, in program order. -/
inductive SEvent where
  | bindAttempt
  | signalReady
  | serveConnections
deriving Repr, DecidableEq

/-- Start: attempts to bind the listening socket; on failure returns the
error at once (the ready channel stays open); on success closes the ready
channel and only then serves connections.  (The blocking Serve call's
eventual return value is modeled as ok.) -/
def Start (s : ResourcePackServer) (bindOk : Bool) :
    Except String Unit × ResourcePackServer × List SEvent :=
  if bindOk then
    (Except.ok (), { s with readyClosed := true },
     [SEvent.bindAttempt, SEvent.signalReady, SEvent.serveConnections])
  else
    (Except.error "listen tcp: bind failed", s, [SEvent.bindAttempt])

/-- WaitForReady: receiving from the ready channel returns immediately once
the channel is closed (`some ()`), and blocks while it is open (`none`). -/
def WaitForReady (s : ResourcePackServer) : Option Unit :=
  if s.readyClosed then some () else none

/-- The server state after `n` Start calls that all fail to bind. -/
def afterFailedStarts : Nat → ResourcePackServer → ResourcePackServer
  | 0, s => s
  | n + 1, s => afterFailedStarts n (Start s false).2.1

/-! ## CDN rewrite (ModifyResourcePackForCDN) -/

/-- ModifyResourcePackForCDN: for each pack, in order, builds the URL
baseURL/UUID and replaces the pack by the one resource.MustReadURL yields
for that URL.  The HTTP fetch is the explicit parameter `readURL`. -/
def ModifyResourcePackForCDN (readURL : String → Pack) (packs : List Pack)
    (baseURL : String) : List Pack :=
  packs.map (fun pack => readURL (baseURL ++ "/" ++ pack.uuid))

/-! ## Theorems -/

/-- Claim C1 (code bug): the spec says dispatching `exit` behaves like
`stop` (close the distribution server and the engine, terminate with
success), and the completer's own vocabulary advertises `exit` with the
description "Stop the server"; but handleCommand only matches "stop" and
"end", so the line `exit` falls through to the unknown-command branch and
performs no action at all, while `stop` does shut everything down. -/
theorem exitDispatchIsUnknownCommand :
    handleCommand
      { sessions := [⟨"Alice"⟩], servers := [("lobby", "127.0.0.1:19133")],
        rpServerRunning := true, bindAddr := "0.0.0.0:19132", defaultServer := "lobby",
        goroutines := 1, goVersion := "go1.24", allocMemMB := "1.00",
        transferResult := fun _ _ => none } "exit" =
      (["Unknown command: exit", "Available commands: players, transfer, info"], []) ∧
    handleCommand
      { sessions := [⟨"Alice"⟩], servers := [("lobby", "127.0.0.1:19133")],
        rpServerRunning := true, bindAddr := "0.0.0.0:19132", defaultServer := "lobby",
        goroutines := 1, goVersion := "go1.24", allocMemMB := "1.00",
        transferResult := fun _ _ => none } "stop" =
      (["Stopped proxy"], [Action.closeRpServer, Action.closeProxy, Action.exitSuccess]) ∧
    Suggest.mk "exit" "Stop the server" ∈ commandSuggestions := by
  refine ⟨by decide, by decide, by decide⟩

/-- Claim C2, counterexample: with a directory of three packages whose middle
entry fails to decode, parse aborts the whole load with that error instead of
skipping the failing package and returning the other two. -/
theorem parseDecodeFailureCounterexample :
    parse
      (fun e => if e = "bad.zip" then Except.error "decode failure"
       else Except.ok ⟨e, e, "1.0.0", "", some []⟩) []
      ["good1.zip", "bad.zip", "good2.zip"] = Except.error "decode failure" := rfl

/-- Claim C2, amended: a package failing to decode at load time is fatal to
the whole load, not just to that package: parse succeeds exactly when every
entry of the directory decodes, and any single decode failure makes the
whole parse (and hence startup) fail. -/
theorem parseSucceedsIffAllDecode (decode : String → Except String Pack)
    (keys : List (String × String)) (entries : List String) :
    (parse decode keys entries).isOk = true ↔
      ∀ e ∈ entries, (decode e).isOk = true := by
  induction entries with
  | nil => simp [parse, Except.isOk, Except.toBool]
  | cons e rest ih =>
    cases hd : decode e with
    | error err => simp [parse, hd, Except.isOk, Except.toBool]
    | ok p =>
      cases hp : parse decode keys rest with
      | error err =>
        rw [hp] at ih
        simp only [parse, hd, hp]
        simp only [Except.isOk, Except.toBool, hd] at ih ⊢
        simp only [List.mem_cons, forall_eq_or_imp, hd]
        simp [ih]
      | ok l =>
        rw [hp] at ih
        simp only [parse, hd, hp]
        simp only [Except.isOk, Except.toBool, hd] at ih ⊢
        simp only [List.mem_cons, forall_eq_or_imp, hd]
        simp only [true_and]
        exact iff_of_true trivial (ih.mp trivial)

/-- Witness for the amended C2 theorem at concrete inputs. -/
theorem parseSucceedsIffAllDecode_witness :
    (parse (fun e => Except.ok ⟨e, e, "1.0.0", "", some []⟩) [] ["a.zip", "b.zip"]).isOk =
      true :=
  (parseSucceedsIffAllDecode (fun e => Except.ok ⟨e, e, "1.0.0", "", some []⟩) []
    ["a.zip", "b.zip"]).mpr (by decide)

/-- Claim C5: when Start succeeds in binding, it returns successfully, the
readiness gate is signaled exactly once, the signal strictly precedes
serving connections, a waiter blocked beforehand (WaitForReady = none on the
pre-state) is unblocked, and WaitForReady on the post-state returns
immediately. -/
theorem startSignalsReadyOnceBeforeServing (s : ResourcePackServer)
    (h : s.readyClosed = false) :
    (Start s true).1 = Except.ok () ∧
    ((Start s true).2.2).count SEvent.signalReady = 1 ∧
    List.indexOf SEvent.signalReady ((Start s true).2.2) <
      List.indexOf SEvent.serveConnections ((Start s true).2.2) ∧
    WaitForReady s = none ∧
    WaitForReady (Start s true).2.1 = some () := by
  have htr : (Start s true).2.2 =
      [SEvent.bindAttempt, SEvent.signalReady, SEvent.serveConnections] := rfl
  refine ⟨rfl, ?_, ?_, ?_, ?_⟩
  · rw [htr]; decide
  · rw [htr]; decide
  · simp [WaitForReady, h]
  · simp [Start, WaitForReady]

/-- Witness for C5 on a freshly constructed server. -/
theorem startSignalsReadyOnceBeforeServing_witness :
    (Start (NewResourcePackServer []) true).1 = Except.ok () ∧
    ((Start (NewResourcePackServer []) true).2.2).count SEvent.signalReady = 1 ∧
    List.indexOf SEvent.signalReady ((Start (NewResourcePackServer []) true).2.2) <
      List.indexOf SEvent.serveConnections ((Start (NewResourcePackServer []) true).2.2) ∧
    WaitForReady (NewResourcePackServer []) = none ∧
    WaitForReady (Start (NewResourcePackServer []) true).2.1 = some () :=
  startSignalsReadyOnceBeforeServing (NewResourcePackServer []) rfl

/-- Helper: a Start call that fails to bind leaves the server state exactly
as it was, so iterating failed Start calls changes nothing. -/
theorem afterFailedStarts_eq (n : Nat) (s : ResourcePackServer) :
    afterFailedStarts n s = s := by
  induction n with
  | zero => rfl
  | succ m ih => simpa [afterFailedStarts, Start] using ih

/-- Claim C10: when the bind fails, Start returns the error, never signals
the readiness gate (no signal event, state unchanged), and WaitForReady
blocks both before and after any number of failed Start calls. -/
theorem startBindFailureNeverSignals (s : ResourcePackServer) (n : Nat)
    (h : s.readyClosed = false) :
    (Start s false).1 = Except.error "listen tcp: bind failed" ∧
    ((Start s false).2.2).count SEvent.signalReady = 0 ∧
    (Start s false).2.1 = s ∧
    WaitForReady s = none ∧
    WaitForReady (afterFailedStarts n s) = none := by
  have htr : (Start s false).2.2 = [SEvent.bindAttempt] := rfl
  refine ⟨rfl, ?_, rfl, by simp [WaitForReady, h], ?_⟩
  · rw [htr]; decide
  · rw [afterFailedStarts_eq]
    simp [WaitForReady, h]

/-- Witness for C10 on a freshly constructed server, after three failed
Start calls. -/
theorem startBindFailureNeverSignals_witness :
    (Start (NewResourcePackServer []) false).1 = Except.error "listen tcp: bind failed" ∧
    ((Start (NewResourcePackServer []) false).2.2).count SEvent.signalReady = 0 ∧
    (Start (NewResourcePackServer []) false).2.1 = NewResourcePackServer [] ∧
    WaitForReady (NewResourcePackServer []) = none ∧
    WaitForReady (afterFailedStarts 3 (NewResourcePackServer [])) = none :=
  startBindFailureNeverSignals (NewResourcePackServer []) 3 rfl

/-- Claim C8: the CDN rewrite is a pure transform producing a list of the
same length in the same order, where the element at every index is exactly
the pack fetched from baseURL/identifier of its input counterpart; and
whenever that fetch returns a pack with the counterpart's identifier and
metadata (which the readiness-gated local distribution server guarantees in
the deployed composition), every output element keeps its counterpart's
identifier, name and version. -/
theorem modifyResourcePackForCDNAligned (readURL : String → Pack)
    (packs : List Pack) (baseURL : String) :
    (ModifyResourcePackForCDN readURL packs baseURL).length = packs.length ∧
    (∀ i : Nat, (ModifyResourcePackForCDN readURL packs baseURL)[i]? =
      (packs[i]?).map (fun pack => readURL (baseURL ++ "/" ++ pack.uuid))) ∧
    ((∀ pack ∈ packs, (readURL (baseURL ++ "/" ++ pack.uuid)).uuid = pack.uuid ∧
        (readURL (baseURL ++ "/" ++ pack.uuid)).name = pack.name ∧
        (readURL (baseURL ++ "/" ++ pack.uuid)).version = pack.version) →
      ∀ (i : Nat) (pack : Pack), packs[i]? = some pack →
        ∃ q, (ModifyResourcePackForCDN readURL packs baseURL)[i]? = some q ∧
          q.uuid = pack.uuid ∧ q.name = pack.name ∧ q.version = pack.version) := by
  refine ⟨List.length_map packs _, fun i => List.getElem?_map _ packs i, ?_⟩
  intro hpres i pack hi
  refine ⟨readURL (baseURL ++ "/" ++ pack.uuid), ?_, ?_, ?_, ?_⟩
  · simp [ModifyResourcePackForCDN, List.getElem?_map, hi]
  · exact (hpres pack (List.getElem?_mem hi)).1
  · exact (hpres pack (List.getElem?_mem hi)).2.1
  · exact (hpres pack (List.getElem?_mem hi)).2.2

/-- Witness for C8 with a one-element pack list and a fetch function that
serves that pack under its rewritten URL. -/
theorem modifyResourcePackForCDNAligned_witness :
    ∃ q, (ModifyResourcePackForCDN
        (fun url => if url = "http://cdn:8080/u1" then ⟨"u1", "P", "1", "", none⟩
         else ⟨"", "", "", "", none⟩)
        [⟨"u1", "P", "1", "", some [1]⟩] "http://cdn:8080")[0]? = some q ∧
      q.uuid = Pack.uuid ⟨"u1", "P", "1", "", some [1]⟩ ∧
      q.name = Pack.name ⟨"u1", "P", "1", "", some [1]⟩ ∧
      q.version = Pack.version ⟨"u1", "P", "1", "", some [1]⟩ :=
  (modifyResourcePackForCDNAligned
      (fun url => if url = "http://cdn:8080/u1" then ⟨"u1", "P", "1", "", none⟩
       else ⟨"", "", "", "", none⟩)
      [⟨"u1", "P", "1", "", some [1]⟩] "http://cdn:8080").2.2
    (by decide) 0 ⟨"u1", "P", "1", "", some [1]⟩ (by decide)

/-- Claim C3: for a nonempty, traversal-free identifier (the request path
with the leading slash stripped) present in the current pack set, the
handler responds 200 with the cached content when a cache entry exists
(state unchanged), or with the lazily read content which it then caches;
either way the body carries the Content-Disposition, Content-Type and
Content-Length headers with the body's exact byte count.  For an identifier
absent from the pack set the response is 404, regardless of the cache. -/
theorem handleRequestServesPresentMissesAbsent :
    (∀ (st : ResourcePackServer) (p : String) (pack : Pack) (content : List Nat),
      ¬ stripLeadingSlash p = "" →
      hasDotDot (stripLeadingSlash p).data = false →
      (stripLeadingSlash p).data.contains '/' = false →
      mapLookup st.packs (stripLeadingSlash p) = some pack →
      mapLookup st.contentCache (stripLeadingSlash p) = some content →
      handleRequest st p =
        (Response.ok
          [("Content-Disposition",
            "attachment; filename=" ++ stripLeadingSlash p ++ ".mcpack"),
           ("Content-Type", "application/zip"),
           ("Content-Length", toString content.length)] content, st,
         [REvent.packLookup (stripLeadingSlash p),
          REvent.cacheLookup (stripLeadingSlash p)])) ∧
    (∀ (st : ResourcePackServer) (p : String) (pack : Pack) (content : List Nat),
      ¬ stripLeadingSlash p = "" →
      hasDotDot (stripLeadingSlash p).data = false →
      (stripLeadingSlash p).data.contains '/' = false →
      mapLookup st.packs (stripLeadingSlash p) = some pack →
      mapLookup st.contentCache (stripLeadingSlash p) = none →
      pack.read = some content →
      handleRequest st p =
        (Response.ok
          [("Content-Disposition",
            "attachment; filename=" ++ stripLeadingSlash p ++ ".mcpack"),
           ("Content-Type", "application/zip"),
           ("Content-Length", toString content.length)] content,
         { st with contentCache :=
            mapInsert (stripLeadingSlash p) content st.contentCache },
         [REvent.packLookup (stripLeadingSlash p),
          REvent.cacheLookup (stripLeadingSlash p),
          REvent.packRead (stripLeadingSlash p),
          REvent.cacheFill (stripLeadingSlash p)])) ∧
    (∀ (st : ResourcePackServer) (p : String),
      ¬ stripLeadingSlash p = "" →
      hasDotDot (stripLeadingSlash p).data = false →
      (stripLeadingSlash p).data.contains '/' = false →
      mapLookup st.packs (stripLeadingSlash p) = none →
      handleRequest st p =
        (Response.notFound, st, [REvent.packLookup (stripLeadingSlash p)])) := by
  refine ⟨?_, ?_, ?_⟩
  · intro st p pack content hne hdot hslash hp hc
    have hm : '/' ∉ (stripLeadingSlash p).data := by simpa using hslash
    simp [handleRequest, hne, hdot, hm, hp, hc, respHeaders]
  · intro st p pack content hne hdot hslash hp hc hr
    have hm : '/' ∉ (stripLeadingSlash p).data := by simpa using hslash
    simp [handleRequest, hne, hdot, hm, hp, hc, hr, respHeaders]
  · intro st p hne hdot hslash hp
    have hm : '/' ∉ (stripLeadingSlash p).data := by simpa using hslash
    simp [handleRequest, hne, hdot, hm, hp]

/-- Witness for C3: a cached pack is served from the cache with the exact
headers, an uncached pack is lazily read and cached, and an identifier with
a cache entry but no pack-set entry still yields 404. -/
theorem handleRequestServesPresentMissesAbsent_witness :
    handleRequest ⟨[("aaaa", ⟨"aaaa", "A", "1", "", some [1, 2]⟩)],
        [("aaaa", [9, 9])], false⟩ "/aaaa" =
      (Response.ok
        [("Content-Disposition", "attachment; filename=aaaa.mcpack"),
         ("Content-Type", "application/zip"), ("Content-Length", "2")] [9, 9],
       ⟨[("aaaa", ⟨"aaaa", "A", "1", "", some [1, 2]⟩)], [("aaaa", [9, 9])], false⟩,
       [REvent.packLookup "aaaa", REvent.cacheLookup "aaaa"]) ∧
    handleRequest ⟨[("bbbb", ⟨"bbbb", "B", "1", "", some [7]⟩)], [], false⟩ "/bbbb" =
      (Response.ok
        [("Content-Disposition", "attachment; filename=bbbb.mcpack"),
         ("Content-Type", "application/zip"), ("Content-Length", "1")] [7],
       ⟨[("bbbb", ⟨"bbbb", "B", "1", "", some [7]⟩)], [("bbbb", [7])], false⟩,
       [REvent.packLookup "bbbb", REvent.cacheLookup "bbbb", REvent.packRead "bbbb",
        REvent.cacheFill "bbbb"]) ∧
    handleRequest ⟨[], [("cccc", [1])], false⟩ "/cccc" =
      (Response.notFound, ⟨[], [("cccc", [1])], false⟩, [REvent.packLookup "cccc"]) :=
  ⟨handleRequestServesPresentMissesAbsent.1
      ⟨[("aaaa", ⟨"aaaa", "A", "1", "", some [1, 2]⟩)], [("aaaa", [9, 9])], false⟩
      "/aaaa" ⟨"aaaa", "A", "1", "", some [1, 2]⟩ [9, 9]
      (by decide) (by decide) (by decide) (by decide) (by decide),
   handleRequestServesPresentMissesAbsent.2.1
      ⟨[("bbbb", ⟨"bbbb", "B", "1", "", some [7]⟩)], [], false⟩
      "/bbbb" ⟨"bbbb", "B", "1", "", some [7]⟩ [7]
      (by decide) (by decide) (by decide) (by decide) (by decide) (by decide),
   handleRequestServesPresentMissesAbsent.2.2
      ⟨[], [("cccc", [1])], false⟩ "/cccc"
      (by decide) (by decide) (by decide) (by decide)⟩

/-- Claim C4: a request whose stripped identifier is empty or contains ".."
or "/" is rejected with 404 before the pack set or the content cache is
consulted: the handler performs no events at all and leaves the state
unchanged. -/
theorem handleRequestTraversalGuardBeforeCache (st : ResourcePackServer)
    (p : String)
    (h : stripLeadingSlash p = "" ∨ hasDotDot (stripLeadingSlash p).data = true ∨
      (stripLeadingSlash p).data.contains '/' = true) :
    handleRequest st p = (Response.notFound, st, []) := by
  rcases h with h | h | h
  · simp [handleRequest, h]
  · by_cases he : stripLeadingSlash p = ""
    · simp [handleRequest, he]
    · simp [handleRequest, he, h]
  · have hm : '/' ∈ (stripLeadingSlash p).data := by simpa using h
    by_cases he : stripLeadingSlash p = ""
    · simp [handleRequest, he]
    · simp [handleRequest, he, hm]

/-- Witness for C4: the empty, the dot-dot and the slash identifier are all
rejected with no cache consultation, even when the cache holds entries. -/
theorem handleRequestTraversalGuardBeforeCache_witness :
    handleRequest ⟨[], [("cccc", [1])], false⟩ "/" =
      (Response.notFound, ⟨[], [("cccc", [1])], false⟩, []) ∧
    handleRequest ⟨[], [("..", [1])], false⟩ "/../x" =
      (Response.notFound, ⟨[], [("..", [1])], false⟩, []) ∧
    handleRequest ⟨[], [("a/b", [1])], false⟩ "/a/b" =
      (Response.notFound, ⟨[], [("a/b", [1])], false⟩, []) :=
  ⟨handleRequestTraversalGuardBeforeCache ⟨[], [("cccc", [1])], false⟩ "/" (by decide),
   handleRequestTraversalGuardBeforeCache ⟨[], [("..", [1])], false⟩ "/../x" (by decide),
   handleRequestTraversalGuardBeforeCache ⟨[], [("a/b", [1])], false⟩ "/a/b" (by decide)⟩

/-- Claim C9: a transfer line with fewer than two arguments after the
command reports the usage message and performs no action; and when no
connected session's display name is an exact, case-sensitive match for the
player argument, "not found" is reported and the transfer operation is
never invoked (no actions at all). -/
theorem transferDispatchGuards :
    (∀ (env : DispatchEnv) (cmd : String) (args : List String),
      strFields cmd = "transfer" :: args → args.length < 2 →
      handleCommand env cmd = (["Usage: transfer <player> <server>"], [])) ∧
    (∀ (env : DispatchEnv) (cmd : String) (player srv : String) (rest : List String),
      strFields cmd = "transfer" :: player :: srv :: rest →
      (∀ s ∈ env.sessions, s.displayName ≠ player) →
      handleCommand env cmd =
        (["Player " ++ squote ++ player ++ squote ++ " not found"], [])) := by
  constructor
  · intro env cmd args hf hlen
    rw [handleCommand, hf]
    simp [dispatchArgs, hlen]
  · intro env cmd player srv rest hf hnone
    rw [handleCommand, hf]
    have hfind : env.sessions.find? (fun s => s.displayName == player) = none :=
      List.find?_eq_none.mpr (fun x hx => by simpa using hnone x hx)
    simp [dispatchArgs, hfind]

/-- Witness for C9: a one-argument transfer reports usage; transferring the
unknown player Bob reports "not found" with no transfer call. -/
theorem transferDispatchGuards_witness :
    handleCommand
      { sessions := [⟨"Alice"⟩], servers := [("lobby", "127.0.0.1:19133")],
        rpServerRunning := false, bindAddr := "0.0.0.0:19132", defaultServer := "lobby",
        goroutines := 1, goVersion := "go1.24", allocMemMB := "1.00",
        transferResult := fun _ _ => none } "transfer Bob" =
      (["Usage: transfer <player> <server>"], []) ∧
    handleCommand
      { sessions := [⟨"Alice"⟩], servers := [("lobby", "127.0.0.1:19133")],
        rpServerRunning := false, bindAddr := "0.0.0.0:19132", defaultServer := "lobby",
        goroutines := 1, goVersion := "go1.24", allocMemMB := "1.00",
        transferResult := fun _ _ => none } "transfer Bob lobby" =
      (["Player " ++ squote ++ "Bob" ++ squote ++ " not found"], []) :=
  ⟨transferDispatchGuards.1
      { sessions := [⟨"Alice"⟩], servers := [("lobby", "127.0.0.1:19133")],
        rpServerRunning := false, bindAddr := "0.0.0.0:19132", defaultServer := "lobby",
        goroutines := 1, goVersion := "go1.24", allocMemMB := "1.00",
        transferResult := fun _ _ => none } "transfer Bob" ["Bob"]
      (by decide) (by decide),
   transferDispatchGuards.2
      { sessions := [⟨"Alice"⟩], servers := [("lobby", "127.0.0.1:19133")],
        rpServerRunning := false, bindAddr := "0.0.0.0:19132", defaultServer := "lobby",
        goroutines := 1, goVersion := "go1.24", allocMemMB := "1.00",
        transferResult := fun _ _ => none } "transfer Bob lobby" "Bob" "lobby" []
      (by decide) (by decide)⟩

/-- Helper: splitting never yields an empty list of pieces (strings.Split
always returns at least one piece). -/
theorem splitOnChar_ne_nil (sep : Char) (l : List Char) : splitOnChar sep l ≠ [] := by
  induction l with
  | nil => simp [splitOnChar]
  | cons c rest ih =>
    simp only [splitOnChar]
    by_cases hc : c = sep
    · simp [hc]
    · simp only [if_neg hc]
      cases hr : splitOnChar sep rest with
      | nil => simp
      | cons h t => simp

/-- Helper: splitOnSpace never yields an empty list of pieces. -/
theorem splitOnSpace_ne_nil (s : String) : splitOnSpace s ≠ [] := by
  simp [splitOnSpace, splitOnChar_ne_nil]

/-- Claim C7: with an empty word under cursor the completer yields no
candidates and the zero-width span; with exactly one token before the
cursor it yields exactly the command vocabulary filtered, in declared
order, to the entries whose name starts with the word case-insensitively,
replacing the span of that word; in particular "trans" with the cursor at
the end yields only transfer. -/
theorem completeSingleTokenVocabulary :
    (∀ (env : CompleterEnv) (d : Document), wordBeforeCursor d = "" →
      Complete env d = ([], 0, 0)) ∧
    (∀ (env : CompleterEnv) (d : Document), wordBeforeCursor d ≠ "" →
      (splitOnSpace (textBeforeCursor d)).length ≤ 1 →
      Complete env d =
        (commandSuggestions.filter
          (fun s => strStartsWith (strToLower s.text) (strToLower (wordBeforeCursor d))),
         d.cursor - (wordBeforeCursor d).length, d.cursor)) ∧
    (∀ env : CompleterEnv, Complete env ⟨"trans", 5⟩ =
      ([⟨"transfer", "Transfer a player to another server"⟩], 0, 5)) := by
  refine ⟨?_, ?_, ?_⟩
  · intro env d h
    simp [Complete, h]
  · intro env d hne hlen
    obtain ⟨x, hx⟩ : ∃ x, splitOnSpace (textBeforeCursor d) = [x] := by
      cases hsp : splitOnSpace (textBeforeCursor d) with
      | nil => exact absurd hsp (splitOnSpace_ne_nil _)
      | cons a t =>
        cases t with
        | nil => exact ⟨a, rfl⟩
        | cons b t2 => rw [hsp] at hlen; simp at hlen
    have hw : wordBeforeCursor d = x := by rw [wordBeforeCursor, hx]; rfl
    rw [hw] at hne ⊢
    simp [Complete, hx, hw, hne, completeCommand, filterStartsWith]
  · intro env
    rfl

/-- Witness for C7: the word "pla" on the single-token path yields only the
players command; an empty input yields no candidates and a zero-width
span. -/
theorem completeSingleTokenVocabulary_witness :
    Complete ⟨[], []⟩ ⟨"", 0⟩ = ([], 0, 0) ∧
    Complete ⟨[], []⟩ ⟨"pla", 3⟩ = ([⟨"players", "List all connected players"⟩], 0, 3) :=
  ⟨completeSingleTokenVocabulary.1 ⟨[], []⟩ ⟨"", 0⟩ (by decide),
   completeSingleTokenVocabulary.2.1 ⟨[], []⟩ ⟨"pla", 3⟩ (by decide) (by decide)⟩

/-- Helper: Append never changes the bound. -/
theorem append_maxSize (h : HistoryFile) (c : String) :
    (h.Append c).maxSize = h.maxSize := by
  simp only [HistoryFile.Append]
  split_ifs <;> rfl

/-- Helper: Append preserves the no-adjacent-duplicates invariant. -/
theorem append_chain (h : HistoryFile) (c : String)
    (hch : List.Chain' Ne h.history) : List.Chain' Ne (h.Append c).history := by
  simp only [HistoryFile.Append]
  by_cases h1 : trimSpace c = ""
  · simpa [h1] using hch
  · by_cases h2 : h.history.getLast? = some (trimSpace c)
    · simpa [h1, h2] using hch
    · simp only [if_neg h1, if_neg h2]
      have hbase : List.Chain' Ne (h.history ++ [trimSpace c]) := by
        rw [List.chain'_append]
        refine ⟨hch, List.chain'_singleton _, ?_⟩
        intro x hx y hy he
        rw [Option.mem_def] at hx
        simp only [List.head?_cons, Option.mem_def, Option.some.injEq] at hy
        exact h2 (by rw [hx, he, hy])
      split
      · exact hbase.suffix (List.drop_suffix _ _)
      · exact hbase

/-- Helper: Append keeps the store within its bound. -/
theorem append_length_le (h : HistoryFile) (c : String)
    (hlen : h.history.length ≤ h.maxSize) :
    (h.Append c).history.length ≤ h.maxSize := by
  simp only [HistoryFile.Append]
  by_cases h1 : trimSpace c = ""
  · simpa [h1] using hlen
  · by_cases h2 : h.history.getLast? = some (trimSpace c)
    · simpa [h1, h2] using hlen
    · simp only [if_neg h1, if_neg h2]
      split
      · rename_i hcond
        simp only [List.length_drop, List.length_append, List.length_singleton]
        omega
      · rename_i hcond
        simp only [List.length_append, List.length_singleton] at hcond ⊢
        omega

/-- Helper: any Append sequence preserves dedup-adjacency, the bound, and
the bound itself. -/
theorem runAppend_invariant (cmds : List String) :
    ∀ h : HistoryFile, List.Chain' Ne h.history → h.history.length ≤ h.maxSize →
      List.Chain' Ne (runAppend h cmds).history ∧
      (runAppend h cmds).history.length ≤ (runAppend h cmds).maxSize ∧
      (runAppend h cmds).maxSize = h.maxSize := by
  induction cmds with
  | nil => intro h hch hlen; exact ⟨hch, hlen, rfl⟩
  | cons c rest ih =>
    intro h hch hlen
    have h1 := append_chain h c hch
    have h2 := append_length_le h c hlen
    have h3 := append_maxSize h c
    have hrec := ih (h.Append c) h1 (by rw [h3]; exact h2)
    exact ⟨hrec.1, hrec.2.1, hrec.2.2.trans h3⟩

/-- Helper: dropping strictly less than the whole list keeps the last
element. -/
theorem getLast?_drop_of_lt {α : Type} :
    ∀ (l : List α) (k : Nat), k < l.length → (l.drop k).getLast? = l.getLast? := by
  intro l
  induction l with
  | nil => intro k hk; simp at hk
  | cons a t ih =>
    intro k hk
    cases k with
    | zero => rfl
    | succ m =>
      have hm : m < t.length := by simpa using hk
      have ht : t ≠ [] := by intro h; rw [h] at hm; simp at hm
      rw [List.drop_succ_cons, ih m hm]
      cases t with
      | nil => exact absurd rfl ht
      | cons b t2 => rw [List.getLast?_cons_cons]

/-- Helper: appending a fresh nonempty trimmed command to a store holding
the last N of `pre` yields the last N of `pre ++ [c]`. -/
theorem append_takeLast (N : Nat) (pre : List String) (c : String)
    (htrim : trimSpace c = c) (hc : c ≠ "")
    (hlast : ∀ x, pre.getLast? = some x → x ≠ c) :
    HistoryFile.Append ⟨N, takeLast N pre⟩ c = ⟨N, takeLast N (pre ++ [c])⟩ := by
  have hne : (takeLast N pre).getLast? ≠ some c := by
    rcases Nat.eq_zero_or_pos N with hN | hN
    · subst hN
      rw [takeLast, Nat.sub_zero, List.drop_length]
      simp
    · by_cases hlen : pre.length ≤ N
      · rw [takeLast, Nat.sub_eq_zero_of_le hlen, List.drop_zero]
        intro hp
        exact hlast c hp rfl
      · push_neg at hlen
        rw [takeLast, getLast?_drop_of_lt pre _ (by omega)]
        intro hp
        exact hlast c hp rfl
  simp only [HistoryFile.Append, htrim]
  rw [if_neg hc, if_neg hne]
  have hgoal : (if N < (takeLast N pre ++ [c]).length
      then (takeLast N pre ++ [c]).drop ((takeLast N pre ++ [c]).length - N)
      else takeLast N pre ++ [c]) = takeLast N (pre ++ [c]) := by
    by_cases hcond : N < (takeLast N pre ++ [c]).length
    · rw [if_pos hcond]
      by_cases hlen : pre.length ≤ N
      · have hTP : takeLast N pre = pre := by
          rw [takeLast, Nat.sub_eq_zero_of_le hlen, List.drop_zero]
        rw [hTP, takeLast]
      · push_neg at hlen
        have hL : (takeLast N pre).length = N := by
          rw [takeLast, List.length_drop]; omega
        rcases Nat.eq_zero_or_pos N with hN | hN
        · subst hN
          have hTP : takeLast 0 pre = [] := by
            rw [takeLast, Nat.sub_zero, List.drop_length]
          rw [hTP, takeLast]
          simp
        · rw [List.length_append, hL, List.length_singleton,
            show N + 1 - N = 1 from by omega, takeLast, takeLast,
            List.drop_append_of_le_length (by rw [List.length_drop]; omega),
            List.drop_drop,
            List.length_append, List.length_singleton,
            List.drop_append_of_le_length (by omega)]
          have harith : pre.length - N + 1 = pre.length + 1 - N := by omega
          rw [harith]
    · rw [if_neg hcond]
      have hlen2 : (takeLast N pre).length = pre.length - (pre.length - N) := by
        rw [takeLast, List.length_drop]
      rw [List.length_append, List.length_singleton] at hcond
      have hTP : takeLast N pre = pre := by
        rw [takeLast, Nat.sub_eq_zero_of_le (by omega), List.drop_zero]
      rw [hTP, takeLast, List.length_append, List.length_singleton,
        Nat.sub_eq_zero_of_le (by omega), List.drop_zero]
  rw [hgoal]

/-- Helper: a sequence of fresh (trimmed, nonempty, adjacent-distinct)
commands leaves the store holding exactly the last N of the whole
sequence. -/
theorem runAppend_takeLast (N : Nat) :
    ∀ (cmds pre : List String),
      (∀ c ∈ cmds, trimSpace c = c ∧ c ≠ "") →
      List.Chain' Ne (pre ++ cmds) →
      runAppend ⟨N, takeLast N pre⟩ cmds = ⟨N, takeLast N (pre ++ cmds)⟩ := by
  intro cmds
  induction cmds with
  | nil => intro pre hwf hch; simp [runAppend]
  | cons c rest ih =>
    intro pre hwf hch
    have hwc := hwf c (List.mem_cons_self c rest)
    have hlast : ∀ x, pre.getLast? = some x → x ≠ c := by
      intro x hx
      exact (List.chain'_append.mp hch).2.2 x (by rw [Option.mem_def]; exact hx) c (by simp)
    have hstep := append_takeLast N pre c hwc.1 hwc.2 hlast
    show runAppend (HistoryFile.Append ⟨N, takeLast N pre⟩ c) rest = _
    rw [hstep, ih (pre ++ [c]) (fun x hx => hwf x (List.mem_cons_of_mem c hx))
      (by rw [List.append_assoc]; simpa using hch)]
    rw [List.append_assoc]
    rfl

/-- Claim C6: over any Append sequence on a store bounded at N the store
never holds two adjacent equal entries and never more than N entries;
appending a command equal to the immediate predecessor leaves the store
unchanged, so appending the same command twice from empty yields length 1;
and appending N+5 distinct well-formed commands yields exactly the last N
(the oldest five evicted first). -/
theorem historyBoundedDedup (N : Nat) :
    (∀ cmds : List String,
      List.Chain' Ne (runAppend (emptyHistory N) cmds).history ∧
      (runAppend (emptyHistory N) cmds).history.length ≤ N) ∧
    (∀ (h : HistoryFile) (cmd : String),
      h.history.getLast? = some (trimSpace cmd) → h.Append cmd = h) ∧
    (∀ c : String, 1 ≤ N → trimSpace c = c → c ≠ "" →
      (runAppend (emptyHistory N) [c, c]).history = [c]) ∧
    (∀ cmds : List String, cmds.length = N + 5 → cmds.Pairwise Ne →
      (∀ c ∈ cmds, trimSpace c = c ∧ c ≠ "") →
      (runAppend (emptyHistory N) cmds).history = cmds.drop 5) := by
  refine ⟨?_, ?_, ?_, ?_⟩
  · intro cmds
    have hinv := runAppend_invariant cmds (emptyHistory N) (by simp [emptyHistory])
      (by simp [emptyHistory])
    have hm : (runAppend (emptyHistory N) cmds).maxSize = N := hinv.2.2
    exact ⟨hinv.1, hinv.2.1.trans (le_of_eq hm)⟩
  · intro h cmd hl
    simp only [HistoryFile.Append]
    by_cases h1 : trimSpace cmd = ""
    · simp [h1]
    · simp [h1, hl]
  · intro c hN htrim hc
    have hnotlt : ¬ N < 1 := by omega
    have h1 : (emptyHistory N).Append c = ⟨N, [c]⟩ := by
      simp [HistoryFile.Append, emptyHistory, htrim, hc, hnotlt]
    have h2 : (⟨N, [c]⟩ : HistoryFile).Append c = ⟨N, [c]⟩ := by
      simp [HistoryFile.Append, htrim, hc]
    show (((emptyHistory N).Append c).Append c).history = [c]
    rw [h1, h2]
  · intro cmds hlen hpw hwf
    have h0 : emptyHistory N = (⟨N, takeLast N []⟩ : HistoryFile) := by
      simp [emptyHistory, takeLast]
    rw [h0, runAppend_takeLast N cmds [] hwf (by simpa using hpw.chain')]
    show takeLast N ([] ++ cmds) = cmds.drop 5
    rw [List.nil_append, takeLast, hlen]
    congr 1
    omega

/-- Witness for C6 at N = 2: a duplicate append collapses to one entry, and
seven distinct commands leave exactly the last two. -/
theorem historyBoundedDedup_witness :
    (runAppend (emptyHistory 2) ["a", "a"]).history = ["a"] ∧
    (runAppend (emptyHistory 2) ["a", "b", "c", "d", "e", "f", "g"]).history = ["f", "g"] :=
  ⟨(historyBoundedDedup 2).2.2.1 "a" (by decide) (by decide) (by decide),
   (historyBoundedDedup 2).2.2.2 ["a", "b", "c", "d", "e", "f", "g"]
     (by decide) (by decide) (by decide)⟩

end SpectrumProxy
